import Mathlib

/-
Verification development for the pyAMOSA optimization engine (AMOSA.py).

The Python source is shallowly embedded: candidate solutions become the
structure Point below (decision vector, objective vector, optional
constraint-violation vector), list-manipulating methods become Lean
functions on lists, and the pseudo-random draws are modelled by explicit
oracle parameters that range over all possible draws.  Objective and
constraint values are embedded as rationals: every comparison and sum
performed by the source on floats is mirrored exactly, and the places
where float semantics matter (division by zero, numpy warnings promoted
to errors by warnings.filterwarnings at AMOSA.__init__) are modelled by
explicit error results of type PyError.
-/

namespace PyAMOSA

/-- Errors raised by the Python runtime that the embedding makes explicit. -/
inductive PyError where
  | zeroDivisionError
  | valueError
  | attributeError
  | typeError
deriving DecidableEq, Repr

/-- A candidate solution, mirroring the dictionaries the source passes around:
s has a decision vector s["x"], objectives s["f"] and constraint violations
s["g"], the latter being None exactly when the problem has no constraints.
Decision vectors are embedded for INTEGER variables. -/
structure Point where
  x : List Int
  f : List ℚ
  g : Option (List ℚ)
deriving DecidableEq, Repr

/-- Fallback value for indexing operations; never produced on the paths the
theorems below traverse. -/
def defaultPoint : Point := ⟨[], [], none⟩

/-- AMOSA.is_the_same (AMOSA.py line 164): x["x"] == y["x"]. -/
def is_the_same (x y : Point) : Bool := decide (x.x = y.x)

/-- AMOSA.x_is_feasible_while_y_is_nor (AMOSA.py line 197):
all(i <= 0 for i in x["f"]) and any(i > 0 for i in y["g"]).
The first conjunct ranges over x["f"], the objectives, exactly as in the
source (this is the subject of claim C1; feasibility everywhere else in the
source means all constraint violations nonpositive).  When this helper is
reached both points carry a constraint list, so y.g is read with default []. -/
def x_is_feasible_while_y_is_nor (x y : Point) : Bool :=
  (x.f.all fun i => decide (i ≤ 0)) && ((y.g.getD []).any fun i => decide (0 < i))

/-- AMOSA.both_infeasible_but_x_is_better (AMOSA.py line 201). -/
def both_infeasible_but_x_is_better (x y : Point) : Bool :=
  ((x.g.getD []).any fun i => decide (0 < i)) &&
  ((y.g.getD []).any fun i => decide (0 < i)) &&
  (((x.g.getD []).zip (y.g.getD [])).all fun p => decide (p.1 ≤ p.2)) &&
  (((x.g.getD []).zip (y.g.getD [])).any fun p => decide (p.1 < p.2))

/-- AMOSA.both_feasible_but_x_is_better (AMOSA.py line 205). -/
def both_feasible_but_x_is_better (x y : Point) : Bool :=
  ((x.g.getD []).all fun i => decide (i ≤ 0)) &&
  ((y.g.getD []).all fun i => decide (i ≤ 0)) &&
  ((x.f.zip y.f).all fun p => decide (p.1 ≤ p.2)) &&
  ((x.f.zip y.f).any fun p => decide (p.1 < p.2))

/-- AMOSA.dominates (AMOSA.py line 190); the module-level dominates at line
748 is the same formula with the three constrained disjuncts written inline. -/
def dominates (x y : Point) : Bool :=
  match x.g with
  | none =>
      ((x.f.zip y.f).all fun p => decide (p.1 ≤ p.2)) &&
      ((x.f.zip y.f).any fun p => decide (p.1 < p.2))
  | some _ =>
      x_is_feasible_while_y_is_nor x y ||
      both_infeasible_but_x_is_better x y ||
      both_feasible_but_x_is_better x y

/-- AMOSA.Problem.get_cache_key (AMOSA.py line 141): the Python expression
is the separator-free concatenation of str(i) over the components of s["x"];
for Python ints, str is the decimal representation, which is toString on Int. -/
def get_cache_key (x : List Int) : String :=
  String.join (x.map fun i => toString i)

/-- One pass of the removal loop of AMOSA.add_to_archive (AMOSA.py lines
310-312): for y in archive: if dominates(x, y): archive.remove(y).
CPython iterates the list by an internal index that advances once per step
even when the current element was just removed, so the element that slides
into the freed slot is skipped; list.remove deletes the first element equal
to its argument, which is List.erase.  The fuel argument only bounds the
number of loop steps: the index grows by one per step and the list never
grows, so length + 1 steps always reach the exit condition. -/
def pyRemoveLoop (x : Point) : ℕ → List Point → ℕ → List Point
  | 0, l, _ => l
  | fuel + 1, l, i =>
      if h : i < l.length then
        let y := l.get ⟨i, h⟩
        if dominates x y then pyRemoveLoop x fuel (l.erase y) (i + 1)
        else pyRemoveLoop x fuel l (i + 1)
      else l

/-- AMOSA.add_to_archive (AMOSA.py line 305): append when empty; otherwise
run the removal loop above, then append x unless some survivor dominates it
or shares its decision vector. -/
def add_to_archive (archive : List Point) (x : Point) : List Point :=
  if archive.length = 0 then archive ++ [x]
  else
    let pruned := pyRemoveLoop x (archive.length + 1) archive 0
    if !(pruned.any fun y => dominates y x || is_the_same x y) then pruned ++ [x]
    else pruned

/-- Concrete instantiation of the objective-space distance used by the
witnesses and counterexamples: the clustering code computes
np.linalg.norm(a - b); any nonnegative function that vanishes on equal
vectors drives the same control flow, and the squared Euclidean distance
is exactly representable over the rationals. -/
def sqDist (a b : List ℚ) : ℚ :=
  ((a.zip b).map fun p => (p.1 - p.2) * (p.1 - p.2)).sum

/-- First index of the least element, starting the scan at index i with the
given current best; np.argmin and np.nanargmin return the first occurrence
of the minimum over a list of (non-NaN) values. -/
def idxMinAux : List ℚ → ℕ → ℕ → ℚ → ℕ
  | [], _, best, _ => best
  | v :: rest, i, best, bestv =>
      if v < bestv then idxMinAux rest (i + 1) i v
      else idxMinAux rest (i + 1) best bestv

/-- Index of the first minimal element of a list (np.argmin / np.nanargmin
over lists without NaN entries); 0 on the empty list, which the source never
reaches on the paths modelled here. -/
def idxMin : List ℚ → ℕ
  | [] => 0
  | v :: rest => idxMinAux rest 1 0 v

/-- AMOSA.centroid_of_set (AMOSA.py line 360): for each member i, sum the
distances to every j with a different decision vector (np.nansum skips the
np.nan the source writes for the pairs with equal decision vectors), then
return the member attaining the first minimal sum (np.nanargmin).  The dist
parameter stands for np.linalg.norm of the difference of objective vectors. -/
def centroid_of_set (dist : List ℚ → List ℚ → ℚ) (s : List Point) : Point :=
  let d := s.map fun i =>
    ((s.filter fun j => decide (j.x ≠ i.x)).map fun j => dist i.f j.f).sum
  s.getD (idxMin d) defaultPoint

/-- Remaining rounds of the k-means++ centroid selection loop of
AMOSA.kmeans_clustering (AMOSA.py lines 375-391).  Each round computes, for
every archive point, the summed distance to the already chosen centroids
(np.nansum over plain nonnegative reals is the sum).  The source then
normalizes by np.nansum(dists): when that total is zero the division yields
NaN, which raises (numpy RuntimeWarning promoted to an error, or ValueError
inside np.random.choice), the except branch prints and calls exit();
this is modelled by the error result.  Otherwise np.random.choice picks an
archive index, modelled nondeterministically by the oracle (the modulus
keeps it in range; quantifying over all oracles covers every draw). -/
def selectCentroids (dist : List ℚ → List ℚ → ℚ) (oracle : ℕ → ℕ)
    (archive : List Point) : ℕ → List Point → Except PyError (List Point)
  | 0, cs => .ok cs
  | n + 1, cs =>
      if (archive.map fun p => (cs.map fun c => dist c.f p.f).sum).sum = 0 then
        .error PyError.valueError
      else
        selectCentroids dist oracle archive n
          (cs ++ [archive.getD (oracle cs.length % archive.length) defaultPoint])

/-- Assignment step of AMOSA.kmeans_clustering (AMOSA.py lines 396-401):
sorted_points[i] collects, in archive order, the points whose first nearest
centroid (np.argmin over the distance list) has index i. -/
def assignClusters (dist : List ℚ → List ℚ → ℚ)
    (archive centroids : List Point) : List (List Point) :=
  (List.range centroids.length).map fun i =>
    archive.filter fun x =>
      decide (idxMin (centroids.map fun c => dist x.f c.f) = i)

/-- Centroid-adjustment iterations of AMOSA.kmeans_clustering (AMOSA.py
lines 395-409): up to max_iterations rounds of assigning points to their
nearest centroid and replacing each centroid of a nonempty cluster by that
cluster's medoid.  The source breaks out early once the centroid list is
unchanged; since the update is deterministic, iterating an unchanged list
further is the identity, so running all rounds is extensionally the same. -/
def kmeansIter (dist : List ℚ → List ℚ → ℚ) (archive : List Point) :
    ℕ → List Point → List Point
  | 0, cs => cs
  | n + 1, cs =>
      kmeansIter dist archive n
        (((assignClusters dist archive cs).zip cs).map fun pc =>
          if pc.1.length ≠ 0 then centroid_of_set dist pc.1 else pc.2)

/-- AMOSA.kmeans_clustering (AMOSA.py line 366).  The leading assert
max_iterations > 0 is the valueError case; the first random.choice for the
initial centroid is drawn through the oracle at step 0. -/
def kmeans_clustering (dist : List ℚ → List ℚ → ℚ) (oracle : ℕ → ℕ)
    (archive : List Point) (num_of_clusters max_iterations : ℕ) :
    Except PyError (List Point) :=
  if max_iterations = 0 then .error PyError.valueError
  else if 1 < num_of_clusters ∧ num_of_clusters < archive.length then
    match selectCentroids dist oracle archive (num_of_clusters - 1)
        [archive.getD (oracle 0 % archive.length) defaultPoint] with
    | .error e => .error e
    | .ok cs => .ok (kmeansIter dist archive max_iterations cs)
  else if num_of_clusters = 1 then .ok [centroid_of_set dist archive]
  else .ok archive

/-- Module-level domination_amount (AMOSA.py line 759, duplicated as the
static method at line 252): np.prod of abs(i - j) / k over
zip(x["f"], y["f"], r).  The fitness-range components are numpy floats and
warnings are promoted to errors, so a zero divisor raises instead of
producing inf or NaN; the embedding makes that fault explicit and otherwise
returns the rational product. -/
def domination_amount (x y : Point) (r : List ℚ) : Except PyError ℚ :=
  if (x.f.zip (y.f.zip r)).any fun t => decide (t.2.2 = 0) then
    .error PyError.zeroDivisionError
  else .ok (((x.f.zip (y.f.zip r)).map fun t => |t.1 - t.2.1| / t.2.2).prod)

/-- Convergence-tracker state: the attributes of the AMOSA instance read or
written by AMOSA.__compute_deltas.  The field old_f models the attribute
self.__old_f: the outer Option is presence of the attribute in the instance
dictionary (none means reading it raises AttributeError), the inner Option
is the Python distinction between None and an array value.  The field
old_norm_objectives is the attribute __init__ (line 444) and run (line 458)
actually initialize; no other method ever assigns __old_f. -/
structure TrackerState where
  nadir : Option (List ℚ)
  ideal : Option (List ℚ)
  old_norm_objectives : List (List ℚ)
  old_f : Option (Option (List (List ℚ)))
deriving Repr

/-- Tracker state after AMOSA.__init__ (lines 442-444) or the reset at the
start of AMOSA.run (lines 456-458): ideal and nadir are None, the normalized
snapshot list is empty, and the attribute __old_f has never been assigned. -/
def initTrackerState : TrackerState := ⟨none, none, [], none⟩

/-- Elementwise maximum across the rows of a matrix, np.max(f, axis=0). -/
def colMax : List (List ℚ) → List ℚ
  | [] => []
  | r :: rs => rs.foldl (fun acc row => (acc.zip row).map fun p => max p.1 p.2) r

/-- Elementwise minimum across the rows of a matrix, np.min(f, axis=0). -/
def colMin : List (List ℚ) → List ℚ
  | [] => []
  | r :: rs => rs.foldl (fun acc row => (acc.zip row).map fun p => min p.1 p.2) r

/-- Maximum of a list of rationals (np.max of a nonempty list; the source
never takes it over an empty list on the paths modelled here). -/
def listMax (l : List ℚ) : ℚ := l.foldl max (l.headD 0)

/-- Minimum of a list of rationals (np.min, same remark as listMax). -/
def listMin (l : List ℚ) : ℚ := l.foldl min (l.headD 0)

/-- Row normalization of AMOSA.__compute_deltas (lines 626 and 633):
[(p - i) / (n - i) for p, i, n in zip(x, ideal, nadir)] for every row x.
Rational division stands in for float division on this off-claim path. -/
def normalizeRows (f : List (List ℚ)) (ideal nadir : List ℚ) : List (List ℚ) :=
  f.map fun x => (x.zip (ideal.zip nadir)).map fun t =>
    (t.1 - t.2.1) / (t.2.2 - t.2.1)

/-- AMOSA.__compute_deltas (AMOSA.py line 621) on the objective matrix f of
the current archive.  The guard at line 623 evaluates
nadir is None and ideal is None and old_f is None left to right with
short-circuiting; whenever it reaches self.__old_f and the attribute was
never assigned, Python raises AttributeError (this is the state every fresh
run is in, since __init__ and run initialize __old_norm_objectives instead).
The else branch likewise reads self.__old_f at line 634, and would raise
TypeError at lines 631-633 if exactly one of nadir and ideal were None.
The two delta results are Option ℚ with none standing for np.inf. -/
def compute_deltas (dist : List ℚ → List ℚ → ℚ) (st : TrackerState)
    (f : List (List ℚ)) :
    Except PyError ((Option ℚ × Option ℚ × ℚ) × TrackerState) :=
  match st.nadir, st.ideal with
  | none, none =>
      match st.old_f with
      | none => .error PyError.attributeError
      | some none =>
          let nadir := colMax f
          let ideal := colMin f
          let old := normalizeRows f ideal nadir
          .ok ((none, none, 0),
               ⟨some nadir, some ideal, st.old_norm_objectives, some (some old)⟩)
      | some (some _) => .error PyError.typeError
  | some nad, some idl =>
      let nadir := colMax f
      let ideal := colMin f
      let delta_nad :=
        listMax ((nad.zip (nadir.zip ideal)).map fun t =>
          (t.1 - t.2.1) / (t.1 - t.2.2))
      let delta_ideal :=
        listMax ((idl.zip (ideal.zip nad)).map fun t =>
          (t.1 - t.2.1) / (t.2.2 - t.2.1))
      let fn := normalizeRows f idl nad
      match st.old_f with
      | none => .error PyError.attributeError
      | some none => .error PyError.typeError
      | some (some old) =>
          let phy := ((old.map fun p => listMin (fn.map fun q => dist p q)).sum)
            / (old.length : ℚ)
          .ok ((some delta_nad, some delta_ideal, phy),
               ⟨some nadir, some ideal, st.old_norm_objectives, some (some fn)⟩)
  | _, _ => .error PyError.typeError

/-- The max_size_mb default of MultiFileCacheHandle (AMOSA.py line 28),
always 10 where the handler is constructed (lines 151 and 155). -/
def maxSizeMb : ℕ := 10

/-- MultiFileCacheHandle.chunks (AMOSA.py line 59): split an association
list (a Python dict in insertion order) into consecutive groups of at most
m entries.  The fuel is only a structural-recursion bound: with m ≥ 1 each
step consumes at least one element, so fuel = length suffices. -/
def chunkAux (m : ℕ) : ℕ → List α → List (List α)
  | _, [] => []
  | 0, _ :: _ => []
  | fuel + 1, a :: l => ((a :: l).take m) :: chunkAux m fuel ((a :: l).drop m)

/-- All chunks of at most m entries, in order. -/
def chunkList (m : ℕ) (l : List α) : List (List α) := chunkAux m l.length l

/-- MultiFileCacheHandle.write (AMOSA.py line 43), data part.  The cache is
an association list with key type K (the source keys are the cache-key
strings) and value type V (the records holding f and g); sz is the byte
size sys.getsizeof(json.dumps(cache)) reports, kept as a parameter because
Python object sizes are not derivable from the values.  The source divides
by total_entries first (ZeroDivisionError on an empty cache, claim C10),
then computes max_entries_per_file = int(max_size_mb * 2^20 / avg) where
avg = ceil(sz / total_entries), and splits the dict; a zero
max_entries_per_file would make chunks raise ValueError on range(0, n, 0).
The number of chunks produced by chunks equals splits = ceil(n / m), so
the zip at line 55 drops nothing. -/
def write (K V : Type) (sz : ℕ) (cache : List (K × V)) :
    Except PyError (List (List (K × V))) :=
  if cache.length = 0 then .error PyError.zeroDivisionError
  else if (sz + cache.length - 1) / cache.length = 0 then
    .error PyError.zeroDivisionError
  else if maxSizeMb * 2 ^ 20 / ((sz + cache.length - 1) / cache.length) = 0 then
    .error PyError.valueError
  else
    .ok (chunkList (maxSizeMb * 2 ^ 20 / ((sz + cache.length - 1) / cache.length))
      cache)

/-- The Python dict merge {**a, **b} on association lists: the keys of a in
order, with the value overridden by b when b also binds the key, followed by
the keys only b binds. -/
def dictMerge [DecidableEq K] (a b : List (K × V)) : List (K × V) :=
  (a.map fun kv =>
    match b.lookup kv.1 with
    | some v => (kv.1, v)
    | none => kv) ++
  b.filter fun kv => (a.lookup kv.1).isNone

/-- MultiFileCacheHandle.read (AMOSA.py line 32): fold the dict merge over
the shard files (cache = {**cache, **tmp} for each shard). -/
def read [DecidableEq K] (shards : List (List (K × V))) : List (K × V) :=
  shards.foldl dictMerge []

/-- A directory entry as MultiFileCacheHandle.write observes it: an
identifier and whether the name ends in .json (the only property the
source tests with f.endswith). -/
structure DirFile where
  id : ℕ
  json : Bool
deriving DecidableEq, Repr

/-- MultiFileCacheHandle.write (AMOSA.py line 43) including its filesystem
effect: first every .json file of the directory is removed (lines 44-47),
then the size arithmetic runs and the shard files 000000000.json … are
created.  The result pairs the directory contents afterwards with the
written shards or the raised error. -/
def store_fs (K V : Type) (existing : List DirFile) (sz : ℕ)
    (cache : List (K × V)) : List DirFile × Except PyError (List (List (K × V))) :=
  let cleared := existing.filter fun f => !f.json
  match write K V sz cache with
  | .error e => (cleared, .error e)
  | .ok shards =>
      (cleared ++ (List.range shards.length).map fun i => ⟨i, true⟩, .ok shards)

/-- The variable type tags AMOSA.Type.INTEGER and AMOSA.Type.REAL. -/
inductive VarType where
  | INTEGER
  | REAL
deriving DecidableEq, Repr

/-- Model of random.randrange(lb, ub) for lb < ub: the draw is uniform over
the integers lb, lb+1, …, ub−1 (the stop argument is excluded); the natural
number oracle r selects the draw, and every value of that set is reached by
some oracle value because r ranges over all residues modulo ub − lb. -/
def randrange_model (lb ub : Int) (r : ℕ) : Int :=
  lb + ((r % (ub - lb).toNat : ℕ) : Int)

/-- The reassignment expression of AMOSA.random_perturbation for an INTEGER
variable (AMOSA.py line 239, identical to the sampling in random_point at
line 222): z["x"][i] = lb if lb == ub else random.randrange(lb, ub). -/
def perturbed_int_value (lb ub : Int) (r : ℕ) : Int :=
  if lb = ub then lb else randrange_model lb ub r

/-- A value is assigned with positive probability by the perturbation of an
INTEGER variable exactly when some draw of the uniform sampler produces it. -/
def int_value_reachable (lb ub v : Int) : Prop :=
  ∃ r : ℕ, perturbed_int_value lb ub r = v

/-
Concrete inputs used by the claim theorems below.
-/

/-- Feasible point with a positive objective value: x-part of the C1 input. -/
def c1x : Point := ⟨[0], [1], some [-1]⟩

/-- Infeasible point: y-part of the C1 input. -/
def c1y : Point := ⟨[1], [0], some [1]⟩

/-- First insertion of the C2 sequence. -/
def c2a : Point := ⟨[1], [2, 1], none⟩

/-- Second insertion of the C2 sequence; mutually non-dominating with c2a. -/
def c2b : Point := ⟨[2], [1, 2], none⟩

/-- Third insertion of the C2 sequence; dominates both c2a and c2b. -/
def c2c : Point := ⟨[3], [0, 0], none⟩

/-- Three points sharing one objective vector: the degenerate C4 input. -/
def c4p1 : Point := ⟨[1], [5], none⟩

/-- Second point of the degenerate C4 input. -/
def c4p2 : Point := ⟨[2], [5], none⟩

/-- Third point of the degenerate C4 input. -/
def c4p3 : Point := ⟨[3], [5], none⟩

/-- Single point used by the C4 witness. -/
def c4w : Point := ⟨[0], [1], none⟩

/-- Four points sharing one objective vector: the degenerate C6 input. -/
def c6p1 : Point := ⟨[1], [2, 2], none⟩

/-- Second point of the degenerate C6 input. -/
def c6p2 : Point := ⟨[2], [2, 2], none⟩

/-- Third point of the degenerate C6 input. -/
def c6p3 : Point := ⟨[3], [2, 2], none⟩

/-- Fourth point of the degenerate C6 input. -/
def c6p4 : Point := ⟨[4], [2, 2], none⟩

/-- Four points sharing one objective vector: the C6 witness input. -/
def c6w1 : Point := ⟨[5], [7], none⟩

/-- Second point of the C6 witness input. -/
def c6w2 : Point := ⟨[6], [7], none⟩

/-- Third point of the C6 witness input. -/
def c6w3 : Point := ⟨[7], [7], none⟩

/-- Fourth point of the C6 witness input. -/
def c6w4 : Point := ⟨[8], [7], none⟩

/-- Points of the C5 input. -/
def c5x : Point := ⟨[0], [1], none⟩

/-- Second point of the C5 input. -/
def c5y : Point := ⟨[0], [2], none⟩

/-
Theorems.
-/

/-- C1: the claim states that with constraints present, dominates(x, y) is
true whenever x is feasible (all constraint violations nonpositive) and y is
infeasible, regardless of objective values.  The code instead tests
all(i <= 0 for i in x["f"]) — the objectives — inside
x_is_feasible_while_y_is_nor, so for the concrete feasible x with objective
1 and infeasible y no disjunct fires and dominates returns False.  The
helper name and the source comment at line 752 both document the intended
feasibility test, so this is a slip in the code. -/
theorem C1_feasible_vs_infeasible_not_dominating :
    ((c1x.g.getD []).all fun i => decide (i ≤ 0)) = true ∧
    ((c1y.g.getD []).any fun i => decide (0 < i)) = true ∧
    dominates c1x c1y = false := by decide

/-- C2: the claim states that any sequence of add_to_archive calls from the
empty archive leaves no dominated pair.  The static add_to_archive removes
members while iterating over the same list, so after removing a dominated
member the iterator skips the element that slides into its slot: inserting
c2a, c2b and then the dominating c2c leaves the archive [c2b, c2c] in which
c2c dominates the distinct member c2b.  (The private method __add_to_archive
at line 570 rebuilds the list with a comprehension and does not have this
defect.) -/
theorem C2_insertion_sequence_leaves_dominated_member :
    List.foldl add_to_archive [] [c2a, c2b, c2c] = [c2b, c2c] ∧
    dominates c2c c2b = true ∧ c2c ≠ c2b := by decide

/-- C3 counterexample: the key equality is not equivalent to vector
equality, because the components are concatenated with no separator:
the distinct vectors [1, 23] and [12, 3] both give the key 123. -/
theorem C3_cache_key_collision :
    ¬ ((get_cache_key [1, 23] = get_cache_key [12, 3]) ↔
       ([1, 23] : List Int) = [12, 3]) := by decide

/-- C3 amended: equal decision vectors always receive equal keys, but the
encoding is not canonical: distinct vectors, even of the same length, can
share one key. -/
theorem C3_cache_key_congruent_but_not_injective :
    (∀ x y : List Int, x = y → get_cache_key x = get_cache_key y) ∧
    (∃ x y : List Int, x ≠ y ∧ x.length = y.length ∧
      get_cache_key x = get_cache_key y) :=
  ⟨fun _ _ h => by rw [h], ⟨[1, 23], [12, 3], by decide, by decide, by decide⟩⟩

/-- C3 witness: the congruence half applied at the concrete vector [7]. -/
theorem C3_cache_key_witness :
    get_cache_key [(7 : Int)] = get_cache_key [(7 : Int)] :=
  C3_cache_key_congruent_but_not_injective.1 [7] [7] rfl

/-- The assignment step produces one bucket per centroid. -/
theorem assignClusters_length (dist : List ℚ → List ℚ → ℚ)
    (archive centroids : List Point) :
    (assignClusters dist archive centroids).length = centroids.length := by
  simp [assignClusters]

/-- The centroid-adjustment rounds preserve the number of centroids. -/
theorem kmeansIter_length (dist : List ℚ → List ℚ → ℚ) (archive : List Point)
    (n : ℕ) : ∀ cs, (kmeansIter dist archive n cs).length = cs.length := by
  induction n with
  | zero => intro cs; rfl
  | succ n ih =>
      intro cs
      rw [kmeansIter, ih]
      simp [assignClusters_length]

/-- A successful centroid selection adds exactly one centroid per round. -/
theorem selectCentroids_length (dist : List ℚ → List ℚ → ℚ) (oracle : ℕ → ℕ)
    (archive : List Point) (n : ℕ) :
    ∀ cs out, selectCentroids dist oracle archive n cs = .ok out →
      out.length = cs.length + n := by
  induction n with
  | zero =>
      intro cs out h
      rw [selectCentroids] at h
      cases h
      simp
  | succ n ih =>
      intro cs out h
      rw [selectCentroids] at h
      split_ifs at h
      have := ih _ _ h
      simp only [List.length_append, List.length_singleton] at this
      omega

/-- C5 counterexample: a zero fitness-range component makes
domination_amount raise the division fault, so the claimed guard does not
exist and the division-by-zero error is reachable. -/
theorem C5_zero_range_component_faults :
    domination_amount c5x c5y [0] = .error PyError.zeroDivisionError := rfl

/-- C5 amended: domination_amount divides each objective gap by the matching
fitness-range component with no guard; it faults exactly when a zero occurs
among the range components actually zipped with the two objective vectors,
and is well defined otherwise. -/
theorem C5_fault_iff_zero_range (x y : Point) (r : List ℚ) :
    domination_amount x y r = .error PyError.zeroDivisionError ↔
    (0 : ℚ) ∈ (x.f.zip (y.f.zip r)).map fun t => t.2.2 := by
  have key : ((x.f.zip (y.f.zip r)).any fun t => decide (t.2.2 = 0)) = true ↔
      (0 : ℚ) ∈ (x.f.zip (y.f.zip r)).map fun t => t.2.2 := by
    simp [List.any_eq_true, List.mem_map]
  unfold domination_amount
  split_ifs with h
  · exact iff_of_true rfl (key.mp h)
  · exact iff_of_false (by simp) fun hm => h (key.mpr hm)

/-- The medoid of a one-point set is that point. -/
theorem centroid_of_set_singleton (dist : List ℚ → List ℚ → ℚ) (p : Point) :
    centroid_of_set dist [p] = p := by
  have hfilter : ([p].filter fun j => decide (j.x ≠ p.x)) = [] := by
    simp [List.filter]
  simp [centroid_of_set, hfilter, idxMin, idxMinAux]

/-- When the reduction actually clusters (1 < k < number of points) and
every pairwise distance vanishes, the total distance of the first seeding
round is zero and the routine stops with the fault the source turns into a
process exit. -/
theorem kmeans_zero_distances_fault (dist : List ℚ → List ℚ → ℚ)
    (oracle : ℕ → ℕ) (archive : List Point) (k maxIter : ℕ) (hk1 : 1 < k)
    (hk2 : k < archive.length) (h3 : 0 < maxIter)
    (hdeg : ∀ p ∈ archive, ∀ q ∈ archive, dist p.f q.f = 0) :
    kmeans_clustering dist oracle archive k maxIter =
      .error PyError.valueError := by
  unfold kmeans_clustering
  rw [if_neg (by omega), if_pos ⟨hk1, hk2⟩]
  obtain ⟨m, hm⟩ : ∃ m, k - 1 = m + 1 := ⟨k - 2, by omega⟩
  rw [hm]
  have hc0 : archive.getD (oracle 0 % archive.length) defaultPoint ∈ archive := by
    rw [List.getD_eq_getElem _ _ (Nat.mod_lt _ (by omega))]
    exact List.getElem_mem _
  have hz : (archive.map fun p =>
      (([archive.getD (oracle 0 % archive.length) defaultPoint].map
        fun c => dist c.f p.f)).sum).sum = 0 := by
    apply List.sum_eq_zero
    intro x hx
    obtain ⟨p, hp, rfl⟩ := List.mem_map.mp hx
    simp only [List.map_cons, List.map_nil, List.sum_cons, List.sum_nil, add_zero]
    exact hdeg _ hc0 _ hp
  have hsel : selectCentroids dist oracle archive (m + 1)
      [archive.getD (oracle 0 % archive.length) defaultPoint] =
      .error PyError.valueError := by
    rw [selectCentroids, if_pos hz]
  rw [hsel]

/-- C4 counterexample: the claim promises that the reduction returns
min(k, len(points)) points for every nonempty input with k at least 1 and a
positive iteration budget, but on three points sharing one objective vector
with k = 2 every distance to the first centroid is zero (the Euclidean norm
of equal vectors, as the concrete squared distance confirms), the
probability normalization divides zero by zero and the routine terminates
the process instead of returning 2 points. -/
theorem C4_degenerate_input_returns_nothing :
    kmeans_clustering sqDist (fun _ => 0) [c4p1, c4p2, c4p3] 2 1 =
      .error PyError.valueError ∧
    min 2 [c4p1, c4p2, c4p3].length = 2 := by
  constructor
  · apply kmeans_zero_distances_fault sqDist (fun _ => 0) [c4p1, c4p2, c4p3] 2 1
      (by decide) (by decide) (by decide)
    intro p hp q hq
    fin_cases hp <;> fin_cases hq <;> norm_num [sqDist, c4p1, c4p2, c4p3]
  · rfl

/-- C4 amended: whenever kmeans_clustering returns at all (the degenerate
zero-total-distance seeding fault aside), it returns exactly
min(k, len(points)) points, and whenever k is at least the number of points
it returns the input unchanged; this holds for every distance function and
every random draw. -/
theorem C4_kmeans_size_contract (dist : List ℚ → List ℚ → ℚ) (oracle : ℕ → ℕ)
    (archive : List Point) (k maxIter : ℕ) (h1 : archive ≠ []) (h2 : 1 ≤ k)
    (h3 : 0 < maxIter) (out : List Point)
    (hout : kmeans_clustering dist oracle archive k maxIter = .ok out) :
    out.length = min k archive.length ∧ (archive.length ≤ k → out = archive) := by
  have hlen : 0 < archive.length := List.length_pos.mpr h1
  unfold kmeans_clustering at hout
  rw [if_neg (by omega)] at hout
  by_cases hmid : 1 < k ∧ k < archive.length
  · rw [if_pos hmid] at hout
    cases hsel : selectCentroids dist oracle archive (k - 1)
        [archive.getD (oracle 0 % archive.length) defaultPoint] with
    | error e =>
        rw [hsel] at hout
        exact absurd hout (by simp)
    | ok cs =>
        rw [hsel] at hout
        have hcs := selectCentroids_length dist oracle archive (k - 1) _ _ hsel
        simp only [List.length_singleton] at hcs
        have hout2 : kmeansIter dist archive maxIter cs = out := by
          simpa using hout
        constructor
        · rw [← hout2, kmeansIter_length, hcs]
          omega
        · intro hle
          exact absurd hle (by omega)
  · rw [if_neg hmid] at hout
    by_cases hk1 : k = 1
    · rw [if_pos hk1] at hout
      have hout2 : [centroid_of_set dist archive] = out := by simpa using hout
      constructor
      · rw [← hout2]
        simp only [List.length_singleton]
        omega
      · intro hle
        obtain ⟨a, ha⟩ := List.length_eq_one.mp (by omega : archive.length = 1)
        rw [← hout2, ha, centroid_of_set_singleton]
    · rw [if_neg hk1] at hout
      have hout2 : archive = out := by simpa using hout
      have hka : archive.length ≤ k := by
        rcases not_and_or.mp hmid with h | h
        · omega
        · omega
      exact ⟨by rw [← hout2]; omega, fun _ => hout2.symm⟩

/-- C4 witness: the amended size contract applied to the one-point archive
with k = 1, where the reduction returns the single medoid, which is the
input itself. -/
theorem C4_kmeans_size_contract_witness :
    [c4w].length = min 1 [c4w].length ∧ ([c4w].length ≤ 1 → [c4w] = [c4w]) :=
  C4_kmeans_size_contract sqDist (fun _ => 0) [c4w] 1 1 (by decide) (by decide)
    (by decide) [c4w] rfl

/-- C6 counterexample: the claim promises that an input whose pairwise
objective-space distances are all zero is handled without crashing and that
the current set is returned unchanged; on four points sharing one objective
vector with k = 2 the embedded routine instead reaches the seeding fault
that the source handles by printing and calling exit(), and in particular
does not return the set unchanged. -/
theorem C6_degenerate_input_crashes :
    kmeans_clustering sqDist (fun _ => 0) [c6p1, c6p2, c6p3, c6p4] 2 1 =
      .error PyError.valueError ∧
    (.error PyError.valueError : Except PyError (List Point)) ≠
      .ok [c6p1, c6p2, c6p3, c6p4] := by
  refine ⟨?_, by simp⟩
  apply kmeans_zero_distances_fault sqDist (fun _ => 0) [c6p1, c6p2, c6p3, c6p4]
    2 1 (by decide) (by decide) (by decide)
  intro p hp q hq
  fin_cases hp <;> fin_cases hq <;> norm_num [sqDist, c6p1, c6p2, c6p3, c6p4]

/-- C6 amended: whenever the reduction actually clusters (1 < k < number of
points) and every pairwise distance is zero, the zero total distance makes
the probability normalization fail on the very first seeding round and the
routine terminates the process (the except branch prints and exits); the
entries are excluded via NaN only inside centroid_of_set, which the k = 1
and k >= len(points) branches use safely. -/
theorem C6_all_zero_distances_terminate (dist : List ℚ → List ℚ → ℚ)
    (oracle : ℕ → ℕ) (archive : List Point) (k maxIter : ℕ) (hk1 : 1 < k)
    (hk2 : k < archive.length) (h3 : 0 < maxIter)
    (hdeg : ∀ p ∈ archive, ∀ q ∈ archive, dist p.f q.f = 0) :
    kmeans_clustering dist oracle archive k maxIter =
      .error PyError.valueError :=
  kmeans_zero_distances_fault dist oracle archive k maxIter hk1 hk2 h3 hdeg

/-- C6 witness: the amended degeneracy theorem applied to four concrete
points whose objective vectors all coincide, so the objective-space
distance function is constantly zero on them, with k = 3 and two
iterations. -/
theorem C6_all_zero_distances_terminate_witness :
    kmeans_clustering (fun _ _ => 0) (fun _ => 0) [c6w1, c6w2, c6w3, c6w4] 3 2 =
      .error PyError.valueError :=
  C6_all_zero_distances_terminate (fun _ _ => 0) (fun _ => 0)
    [c6w1, c6w2, c6w3, c6w4] 3 2 (by decide) (by decide) (by decide)
    (fun _ _ _ _ => rfl)

/-- C7: the claim states that on the first temperature step of a fresh run
the delta computation returns infinite deltas and phi = 0 without failing.
In the code the guard of __compute_deltas reads self.__old_f, but __init__
(line 444) and run (line 458) initialize __old_norm_objectives instead and
nothing ever assigns __old_f, so the very first call — for every archive
objective matrix — raises AttributeError instead of returning. -/
theorem C7_first_step_raises_attribute_error (dist : List ℚ → List ℚ → ℚ)
    (f : List (List ℚ)) :
    compute_deltas dist initTrackerState f = .error PyError.attributeError := rfl

/-- Concatenating the chunks of a list restores the list whenever the chunk
capacity is positive and the fuel covers the length. -/
theorem chunkAux_flatten (m : ℕ) (hm : 0 < m) :
    ∀ (fuel : ℕ) (l : List α), l.length ≤ fuel →
      (chunkAux m fuel l).flatten = l := by
  intro fuel
  induction fuel with
  | zero =>
      intro l hl
      have h : l = [] := List.length_eq_zero.mp (by omega)
      subst h
      rfl
  | succ fuel ih =>
      intro l hl
      cases l with
      | nil => rfl
      | cons a t =>
          simp only [chunkAux, List.flatten_cons]
          rw [ih ((a :: t).drop m) (by
            simp only [List.length_drop, List.length_cons]
            simp only [List.length_cons] at hl
            omega)]
          exact List.take_append_drop m (a :: t)

/-- Concatenating all chunks restores the original association list. -/
theorem chunkList_flatten (m : ℕ) (hm : 0 < m) (l : List α) :
    (chunkList m l).flatten = l :=
  chunkAux_flatten m hm l.length l le_rfl

/-- A key absent from the key column of an association list has no lookup. -/
theorem lookup_eq_none_of_not_mem_keys [DecidableEq K] (l : List (K × V))
    (k : K) (h : k ∉ l.map Prod.fst) : l.lookup k = none := by
  induction l with
  | nil => rfl
  | cons a t ih =>
      obtain ⟨k1, v1⟩ := a
      simp only [List.map_cons, List.mem_cons, not_or] at h
      have hne : (k == k1) = false := beq_eq_false_iff_ne.mpr h.1
      simp [List.lookup, hne, ih h.2]

/-- The Python dict merge of two association lists with disjoint key columns
is their concatenation. -/
theorem dictMerge_of_disjoint [DecidableEq K] (a b : List (K × V))
    (hd : ∀ k ∈ a.map Prod.fst, k ∉ b.map Prod.fst) :
    dictMerge a b = a ++ b := by
  unfold dictMerge
  have h1 : (a.map fun kv =>
      match b.lookup kv.1 with
      | some v => (kv.1, v)
      | none => kv) = a := by
    have hcongr : (a.map fun kv =>
        match b.lookup kv.1 with
        | some v => (kv.1, v)
        | none => kv) = a.map id :=
      List.map_congr_left fun kv hkv => by
        have hl := lookup_eq_none_of_not_mem_keys b kv.1
          (hd _ (List.mem_map_of_mem Prod.fst hkv))
        simp [hl]
    rw [hcongr, List.map_id]
  have h2 : (b.filter fun kv => (a.lookup kv.1).isNone) = b := by
    apply List.filter_eq_self.mpr
    intro kv hkv
    rw [lookup_eq_none_of_not_mem_keys a kv.1
      (fun hka => hd _ hka (List.mem_map_of_mem Prod.fst hkv))]
    rfl
  rw [h1, h2]

/-- Folding the dict merge over shards with globally distinct keys simply
concatenates them onto the accumulator. -/
theorem foldl_dictMerge_eq_append [DecidableEq K] (shards : List (List (K × V))) :
    ∀ acc : List (K × V), ((acc ++ shards.flatten).map Prod.fst).Nodup →
      List.foldl dictMerge acc shards = acc ++ shards.flatten := by
  induction shards with
  | nil => intro acc h; simp
  | cons s rest ih =>
      intro acc h
      have hre : acc ++ (s :: rest).flatten = (acc ++ s) ++ rest.flatten := by
        rw [List.flatten_cons, ← List.append_assoc]
      rw [hre] at h
      have hdisj : ∀ k ∈ acc.map Prod.fst, k ∉ s.map Prod.fst := by
        have h3 : ((acc ++ s).map Prod.fst).Nodup := by
          rw [List.map_append] at h
          exact (List.nodup_append.mp h).1
        rw [List.map_append] at h3
        have h4 := (List.nodup_append.mp h3).2.2
        exact fun k hk hks => h4 hk hks
      rw [List.foldl_cons, dictMerge_of_disjoint acc s hdisj, hre]
      exact ih (acc ++ s) h

/-- Helper form of the nonzero-capacity branch of write. -/
theorem write_ok_shape (K V : Type) (sz : ℕ) (cache : List (K × V))
    (h1 : cache ≠ []) (shards : List (List (K × V)))
    (hw : write K V sz cache = .ok shards) :
    0 < maxSizeMb * 2 ^ 20 / ((sz + cache.length - 1) / cache.length) ∧
    shards = chunkList
      (maxSizeMb * 2 ^ 20 / ((sz + cache.length - 1) / cache.length)) cache := by
  unfold write at hw
  rw [if_neg (fun hc => h1 (List.length_eq_zero.mp hc))] at hw
  by_cases e1 : (sz + cache.length - 1) / cache.length = 0
  · rw [if_pos e1] at hw
    exact absurd hw (by simp)
  · rw [if_neg e1] at hw
    by_cases e2 : maxSizeMb * 2 ^ 20 / ((sz + cache.length - 1) / cache.length) = 0
    · rw [if_pos e2] at hw
      exact absurd hw (by simp)
    · rw [if_neg e2] at hw
      injection hw with hws
      exact ⟨Nat.pos_of_ne_zero e2, hws.symm⟩

/-- C8: storing a nonempty cache and loading the written shards restores
exactly the original mapping (same keys, same values, in order) and the
shard entry counts sum to the original entry count.  The byte-size estimate
sz is abstract; the hypothesis that write succeeds excludes only the
pathological case in which a single average entry exceeds the 10 MB shard
budget, where the source raises instead of storing. -/
theorem C8_cache_roundtrip (K V : Type) [DecidableEq K] (sz : ℕ)
    (cache : List (K × V)) (h1 : cache ≠ [])
    (h2 : (cache.map Prod.fst).Nodup) (shards : List (List (K × V)))
    (hw : write K V sz cache = .ok shards) :
    read shards = cache ∧ (shards.map List.length).sum = cache.length := by
  obtain ⟨hm, hws⟩ := write_ok_shape K V sz cache h1 shards hw
  subst hws
  refine ⟨?_, ?_⟩
  · unfold read
    rw [foldl_dictMerge_eq_append _ [] (by
      rw [List.nil_append, chunkList_flatten _ hm]
      exact h2)]
    rw [List.nil_append, chunkList_flatten _ hm]
  · rw [← List.length_flatten, chunkList_flatten _ hm]

/-- C8 witness: the round trip applied to the one-entry cache mapping the
key 0 to the value 37, with a byte-size estimate that yields two entries
per shard. -/
theorem C8_cache_roundtrip_witness :
    read [[((0 : ℕ), (37 : ℕ))]] = [(0, 37)] ∧
    ([[((0 : ℕ), (37 : ℕ))]].map List.length).sum = [((0 : ℕ), (37 : ℕ))].length :=
  C8_cache_roundtrip ℕ ℕ 5242880 [(0, 37)] (by decide) (by decide)
    [[(0, 37)]] rfl

/-- C9 counterexample: for the INTEGER bounds lower = 0 < 1 = upper the
perturbation can assign the value 0, but no draw of the sampler ever
assigns the upper bound 1, contradicting the claim that every integer of
the closed interval has positive probability. -/
theorem C9_upper_bound_never_assigned :
    int_value_reachable 0 1 0 ∧ ¬ int_value_reachable 0 1 1 := by
  constructor
  · exact ⟨0, by decide⟩
  · rintro ⟨r, h⟩
    have h2 : perturbed_int_value 0 1 r = 0 := by
      simp [perturbed_int_value, randrange_model, Nat.mod_one]
    exact absurd (h2.symm.trans h) (by decide)

/-- C9 amended: for an INTEGER variable with lower bound strictly below the
upper bound, the values the perturbation assigns with positive probability
are exactly the integers of the half-open interval from the lower bound up
to, and excluding, the upper bound (random.randrange excludes its stop
argument). -/
theorem C9_integer_perturbation_range (lb ub v : Int) (h : lb < ub) :
    int_value_reachable lb ub v ↔ lb ≤ v ∧ v < ub := by
  unfold int_value_reachable perturbed_int_value randrange_model
  have hne : lb ≠ ub := by omega
  simp only [if_neg hne]
  constructor
  · rintro ⟨r, hr⟩
    have hlt : r % (ub - lb).toNat < (ub - lb).toNat :=
      Nat.mod_lt _ (by omega)
    omega
  · rintro ⟨h1, h2⟩
    refine ⟨(v - lb).toNat, ?_⟩
    have hv : (v - lb).toNat < (ub - lb).toNat := by omega
    rw [Nat.mod_eq_of_lt hv]
    omega

/-- C9 witness: the amended range characterization applied at the concrete
bounds 0 and 2 and the value 1. -/
theorem C9_integer_perturbation_witness :
    ((0 : Int) < 2) ∧
    (int_value_reachable 0 2 1 ↔ ((0 : Int) ≤ 1 ∧ (1 : Int) < 2)) :=
  ⟨by decide, C9_integer_perturbation_range 0 2 1 (by decide)⟩

/-- C10: storing an empty cache always fails: the .json shards of the
directory are removed first, then the per-entry size estimate divides by
the zero entry count, so the error propagates with no shard file written
and the directory retains only its non-shard files. -/
theorem C10_empty_cache_store_destroys_shards (V : Type)
    (existing : List DirFile) (sz : ℕ) :
    store_fs ℕ V existing sz [] =
      (existing.filter fun f => !f.json, .error PyError.zeroDivisionError) ∧
    ∀ f ∈ (store_fs ℕ V existing sz []).1, f.json = false := by
  refine ⟨rfl, ?_⟩
  intro f hf
  simp only [store_fs, write, List.length_nil, if_pos rfl] at hf
  have h2 := (List.mem_filter.mp hf).2
  simpa using h2

/-- C10 witness: the empty-cache store applied to a directory holding one
shard file and one non-shard file; only the non-shard file survives and the
division fault is raised. -/
theorem C10_empty_cache_store_witness :
    store_fs ℕ ℕ [⟨0, true⟩, ⟨1, false⟩] 3 [] =
      ([⟨1, false⟩], .error PyError.zeroDivisionError) :=
  (C10_empty_cache_store_destroys_shards ℕ [⟨0, true⟩, ⟨1, false⟩] 3).1

end PyAMOSA
